import Mathlib

/-!
Verification of the broad-phase collision subsystem of the reactphysics3d
engine (files `BroadPhaseSystem.cpp` and `ProxyShape.cpp`).

The dynamic AABB tree, the `AABB`/`Transform` geometric kernels, the
component stores and the body class are external collaborators whose
implementations are not among the given source files; they are modelled
from the specification as abstract interfaces (`TreeOps`) or as the
standard rigid-transform algebra, and every definition taken from the
specification rather than from a source file is marked as such in its
doc comment.  `decimal` (a floating-point scalar in the source) is
modelled by `Rat`.
-/

namespace RP3D

/-- Modelled from the spec: a 3-component vector of scalars (`Vector3`). -/
structure Vector3 where
  x : Rat
  y : Rat
  z : Rat
deriving DecidableEq, Repr

namespace Vector3

/-- Modelled from the spec: the zero vector (`Vector3::zero()`). -/
def zero : Vector3 := ⟨0, 0, 0⟩

/-- Modelled from the spec: componentwise vector addition. -/
def add (a b : Vector3) : Vector3 := ⟨a.x + b.x, a.y + b.y, a.z + b.z⟩

/-- Modelled from the spec: componentwise vector negation. -/
def neg (a : Vector3) : Vector3 := ⟨-a.x, -a.y, -a.z⟩

/-- Modelled from the spec: the dot product of two vectors. -/
def dot (a b : Vector3) : Rat := a.x * b.x + a.y * b.y + a.z * b.z

end Vector3

/-- Modelled from the spec: a 3×3 matrix standing in for the source's
rotation representation; rows are vectors. -/
structure Matrix3 where
  r0 : Vector3
  r1 : Vector3
  r2 : Vector3
deriving DecidableEq, Repr

namespace Matrix3

/-- Modelled from the spec: matrix-vector product. -/
def mulVec (m : Matrix3) (v : Vector3) : Vector3 :=
  ⟨Vector3.dot m.r0 v, Vector3.dot m.r1 v, Vector3.dot m.r2 v⟩

/-- Modelled from the spec: matrix transpose (the inverse of a rotation). -/
def transpose (m : Matrix3) : Matrix3 :=
  ⟨⟨m.r0.x, m.r1.x, m.r2.x⟩, ⟨m.r0.y, m.r1.y, m.r2.y⟩, ⟨m.r0.z, m.r1.z, m.r2.z⟩⟩

/-- Modelled from the spec: matrix-matrix product, written row by row. -/
def mulMat (a b : Matrix3) : Matrix3 :=
  let bt := transpose b
  ⟨⟨Vector3.dot a.r0 bt.r0, Vector3.dot a.r0 bt.r1, Vector3.dot a.r0 bt.r2⟩,
   ⟨Vector3.dot a.r1 bt.r0, Vector3.dot a.r1 bt.r1, Vector3.dot a.r1 bt.r2⟩,
   ⟨Vector3.dot a.r2 bt.r0, Vector3.dot a.r2 bt.r1, Vector3.dot a.r2 bt.r2⟩⟩

/-- Modelled from the spec: the identity matrix. -/
def identity : Matrix3 := ⟨⟨1, 0, 0⟩, ⟨0, 1, 0⟩, ⟨0, 0, 1⟩⟩

end Matrix3

/-- Modelled from the spec: a rigid transform (rotation + translation),
standing in for the source's `Transform` (quaternion + position). -/
structure Transform where
  orientation : Matrix3
  position : Vector3
deriving DecidableEq, Repr

namespace Transform

/-- Modelled from the spec: application of a transform to a point
(`Transform::operator*(Vector3)`). -/
def applyPoint (t : Transform) (v : Vector3) : Vector3 :=
  Vector3.add (t.orientation.mulVec v) t.position

/-- Modelled from the spec: composition of transforms
(`Transform::operator*(Transform)`). -/
def compose (t1 t2 : Transform) : Transform :=
  ⟨t1.orientation.mulMat t2.orientation,
   Vector3.add (t1.orientation.mulVec t2.position) t1.position⟩

/-- Modelled from the spec: inverse of a rigid transform
(`Transform::getInverse()`); the rotation inverse is the transpose. -/
def getInverse (t : Transform) : Transform :=
  ⟨t.orientation.transpose, Vector3.neg (t.orientation.transpose.mulVec t.position)⟩

/-- Modelled from the spec: the identity transform. -/
def identity : Transform := ⟨Matrix3.identity, Vector3.zero⟩

end Transform

/-- Modelled from the spec: an axis-aligned bounding box, an interval
per axis between minimum and maximum coordinates. -/
structure AABB where
  minCoordinates : Vector3
  maxCoordinates : Vector3
deriving DecidableEq, Repr

namespace AABB

/-- Modelled from the spec: `AABB::testCollision`, true exactly when the
two boxes overlap on every axis. -/
def testCollision (a b : AABB) : Bool :=
  (a.minCoordinates.x ≤ b.maxCoordinates.x && b.minCoordinates.x ≤ a.maxCoordinates.x) &&
  (a.minCoordinates.y ≤ b.maxCoordinates.y && b.minCoordinates.y ≤ a.maxCoordinates.y) &&
  (a.minCoordinates.z ≤ b.maxCoordinates.z && b.minCoordinates.z ≤ a.maxCoordinates.z)

/-- A degenerate box at the origin, used only to instantiate abstract
tree interfaces in concrete examples. -/
def point : AABB := ⟨Vector3.zero, Vector3.zero⟩

end AABB

/-- Modelled from the spec: a ray, a segment from `point1` to `point2`
with a maximum hit fraction. -/
structure Ray where
  point1 : Vector3
  point2 : Vector3
  maxFraction : Rat
deriving DecidableEq, Repr

/-- Modelled from the spec: the fields of `RaycastInfo` that
`ProxyShape::raycast` touches (world-space hit point, world-space
normal, and the hit fraction which the wrapper leaves alone). -/
structure RaycastInfo where
  worldPoint : Vector3
  worldNormal : Vector3
  hitFraction : Rat
deriving DecidableEq, Repr

/-- A broad-phase potential overlapping pair of tree node ids, as stored
in `mPotentialPairs` (`BroadPhasePair` in the source). -/
structure BroadPhasePair where
  collisionShape1ID : Int
  collisionShape2ID : Int
deriving DecidableEq, Repr

namespace BroadPhasePair

/-- Modelled from the spec: `BroadPhasePair::smallerThan`, the strict
lexicographic order on `(collisionShape1ID, collisionShape2ID)` used to
sort the potential-pair buffer. -/
def smallerThan (p1 p2 : BroadPhasePair) : Prop :=
  p1.collisionShape1ID < p2.collisionShape1ID ∨
    (p1.collisionShape1ID = p2.collisionShape1ID ∧
     p1.collisionShape2ID < p2.collisionShape2ID)

instance : DecidableRel smallerThan := by
  intro p1 p2
  unfold smallerThan
  infer_instance

/-- The reflexive closure of `smallerThan`: the lexicographic "less than
or equal" order on pairs. -/
def pairLe (p1 p2 : BroadPhasePair) : Prop :=
  p1.collisionShape1ID < p2.collisionShape1ID ∨
    (p1.collisionShape1ID = p2.collisionShape1ID ∧
     p1.collisionShape2ID ≤ p2.collisionShape2ID)

instance : DecidableRel pairLe := by
  intro p1 p2
  unfold pairLe
  infer_instance

/-- Strict lexicographic order: `pairLe` together with distinctness. -/
def pairLt (p1 p2 : BroadPhasePair) : Prop :=
  pairLe p1 p2 ∧ p1 ≠ p2

theorem ext_pair {p1 p2 : BroadPhasePair}
    (h1 : p1.collisionShape1ID = p2.collisionShape1ID)
    (h2 : p1.collisionShape2ID = p2.collisionShape2ID) : p1 = p2 := by
  cases p1; cases p2; simp_all

theorem pairLe_total (p1 p2 : BroadPhasePair) : pairLe p1 p2 ∨ pairLe p2 p1 := by
  unfold pairLe
  omega

theorem pairLe_trans {p1 p2 p3 : BroadPhasePair}
    (h1 : pairLe p1 p2) (h2 : pairLe p2 p3) : pairLe p1 p3 := by
  unfold pairLe at *
  omega

theorem pairLe_antisymm {p1 p2 : BroadPhasePair}
    (h1 : pairLe p1 p2) (h2 : pairLe p2 p1) : p1 = p2 := by
  apply ext_pair <;> (unfold pairLe at *; omega)

theorem pairLe_refl (p : BroadPhasePair) : pairLe p p := by
  unfold pairLe
  omega

instance : IsTotal BroadPhasePair pairLe := ⟨pairLe_total⟩

instance : IsTrans BroadPhasePair pairLe := ⟨fun _ _ _ => pairLe_trans⟩

instance : IsAntisymm BroadPhasePair pairLe := ⟨fun _ _ => pairLe_antisymm⟩

instance : IsRefl BroadPhasePair pairLe := ⟨pairLe_refl⟩

theorem pairLt_of_le_of_ne {p1 p2 : BroadPhasePair}
    (h : pairLe p1 p2) (hne : p1 ≠ p2) : pairLt p1 p2 := ⟨h, hne⟩

end BroadPhasePair

/-- Entities are opaque handles; only equality matters here. -/
abbrev Entity := Nat

/-- Modelled from the spec: the interface of the dynamic AABB tree
(§4.1), whose implementation is not among the given source files.  The
broad-phase system consumes the tree only through these operations;
`τ` is the tree's state.  `getNodeBodyId` models the chain
`static_cast<ProxyShape*>(tree.getNodeDataPointer(id))->getBody()->getId()`
that resolves a leaf's payload to the id of its owning body. -/
structure TreeOps (τ : Type) where
  getFatAABB : τ → Int → AABB
  getNodeBodyId : τ → Int → Int
  reportAllShapesOverlappingWithAABB : τ → AABB → List Int
  updateObject : τ → Int → AABB → Vector3 → Bool × τ

/-- The columns of `ProxyShapeComponents` that the broad-phase system
reads, modelled as maps from row index (the implementation's dense
arrays), together with the entity-to-row map and the enabled count.
Collision shapes are external polymorphic collaborators; a shape is
modelled by its `computeAABB` capability, a function from a world
transform to an AABB. -/
structure ProxyShapeComponents where
  broadPhaseIds : Nat → Int
  bodiesEntities : Nat → Entity
  localToBodyTransforms : Nat → Transform
  collisionShapes : Nat → Transform → AABB
  collisionCategoryBits : Nat → Nat
  collideWithMaskBits : Nat → Nat
  mapEntityToComponentIndex : Entity → Option Nat
  nbEnabledComponents : Nat

namespace ProxyShapeComponents

/-- Source: `ProxyShapeComponents::getBroadPhaseId(entity)`: read the
broad-phase node id of the row the entity maps to (-1 when absent). -/
def getBroadPhaseId (pc : ProxyShapeComponents) (e : Entity) : Int :=
  match pc.mapEntityToComponentIndex e with
  | some i => pc.broadPhaseIds i
  | none => -1

/-- Source: `ProxyShapeComponents::setLocalToBodyTransform(entity, transform)`:
overwrite the local-to-body transform on the entity's row. -/
def setLocalToBodyTransform (pc : ProxyShapeComponents) (e : Entity)
    (t : Transform) : ProxyShapeComponents :=
  match pc.mapEntityToComponentIndex e with
  | some i =>
      { pc with localToBodyTransforms :=
          fun j => if j = i then t else pc.localToBodyTransforms j }
  | none => pc

/-- Source: `ProxyShapeComponents::setCollisionCategoryBits(entity, bits)`. -/
def setCollisionCategoryBits (pc : ProxyShapeComponents) (e : Entity)
    (bits : Nat) : ProxyShapeComponents :=
  match pc.mapEntityToComponentIndex e with
  | some i =>
      { pc with collisionCategoryBits :=
          fun j => if j = i then bits else pc.collisionCategoryBits j }
  | none => pc

/-- Source: `ProxyShapeComponents::setCollideWithMaskBits(entity, bits)`. -/
def setCollideWithMaskBits (pc : ProxyShapeComponents) (e : Entity)
    (bits : Nat) : ProxyShapeComponents :=
  match pc.mapEntityToComponentIndex e with
  | some i =>
      { pc with collideWithMaskBits :=
          fun j => if j = i then bits else pc.collideWithMaskBits j }
  | none => pc

end ProxyShapeComponents

/-- The mutable state of `BroadPhaseSystem` that the verified operations
touch: the dynamic AABB tree (abstract state `τ`) and the ordered
moved-shape sequence `mMovedShapes`. -/
structure BroadPhaseState (τ : Type) where
  tree : τ
  movedShapes : List Int

namespace BroadPhaseSystem

/-- Modelled from the spec: `addMovedCollisionShape` (declared in the
header, not among the given source files) appends the node id to the
ordered moved-shape sequence, which may therefore contain duplicates
(spec §9, "Moved-set as ordered sequence"). -/
def addMovedCollisionShape {τ : Type} (s : BroadPhaseState τ)
    (broadPhaseID : Int) : BroadPhaseState τ :=
  { s with movedShapes := s.movedShapes ++ [broadPhaseID] }

/-- Source: `BroadPhaseSystem::updateProxyShapeInternal`: update the tree with
the new AABB and displacement; when the tree reports re-insertion, add
the node id to the moved-shape sequence. -/
def updateProxyShapeInternal {τ : Type} (ops : TreeOps τ)
    (s : BroadPhaseState τ) (broadPhaseId : Int) (aabb : AABB)
    (displacement : Vector3) : BroadPhaseState τ :=
  let u := ops.updateObject s.tree broadPhaseId aabb displacement
  let s1 : BroadPhaseState τ := { s with tree := u.2 }
  if u.1 then addMovedCollisionShape s1 broadPhaseId else s1

/-- The body of the loop of
`BroadPhaseSystem::updateProxyShapesComponents` for one row `i`:
when the row is indexed (`broadPhaseId ≠ -1`), recompute the world AABB
from the body transform composed with the local-to-body transform and
update the broad-phase state (displacement is currently zero in the
source). -/
def updateRow {τ : Type} (ops : TreeOps τ) (pc : ProxyShapeComponents)
    (tc : Entity → Transform) (s : BroadPhaseState τ) (i : Nat) :
    BroadPhaseState τ :=
  let broadPhaseId := pc.broadPhaseIds i
  if broadPhaseId ≠ -1 then
    let bodyEntity := pc.bodiesEntities i
    let transform := tc bodyEntity
    let displacement := Vector3.zero
    let aabb := pc.collisionShapes i (transform.compose (pc.localToBodyTransforms i))
    updateProxyShapeInternal ops s broadPhaseId aabb displacement
  else s

/-- The loop of `BroadPhaseSystem::updateProxyShapesComponents`, running
`count` iterations from row `start`. -/
def updateRows {τ : Type} (ops : TreeOps τ) (pc : ProxyShapeComponents)
    (tc : Entity → Transform) : Nat → Nat → BroadPhaseState τ → BroadPhaseState τ
  | _, 0, s => s
  | start, Nat.succ n, s => updateRows ops pc tc (start + 1) n (updateRow ops pc tc s start)

/-- Source: `BroadPhaseSystem::updateProxyShapesComponents(startIndex, endIndex)`:
clamp both bounds to the enabled-component count, then run the update
loop over the clamped range. -/
def updateProxyShapesComponents {τ : Type} (ops : TreeOps τ)
    (pc : ProxyShapeComponents) (tc : Entity → Transform)
    (s : BroadPhaseState τ) (startIndex endIndex : Nat) : BroadPhaseState τ :=
  let startIndex1 := min startIndex pc.nbEnabledComponents
  let endIndex1 := min endIndex pc.nbEnabledComponents
  updateRows ops pc tc startIndex1 (endIndex1 - startIndex1) s

/-- Source: `BroadPhaseSystem::updateProxyShape(proxyShapeEntity)`: look up the
entity's row and update that single row (the source asserts the entity
is present; absence is modelled as a no-op). -/
def updateProxyShape {τ : Type} (ops : TreeOps τ)
    (pc : ProxyShapeComponents) (tc : Entity → Transform)
    (s : BroadPhaseState τ) (proxyShapeEntity : Entity) : BroadPhaseState τ :=
  match pc.mapEntityToComponentIndex proxyShapeEntity with
  | some index => updateProxyShapesComponents ops pc tc s index (index + 1)
  | none => s

/-- Source: `BroadPhaseSystem::testOverlappingShapes(shape1, shape2)`: false
when either proxy is not indexed, otherwise the overlap test of the two
nodes' fat AABBs. -/
def testOverlappingShapes {τ : Type} (ops : TreeOps τ) (t : τ)
    (pc : ProxyShapeComponents) (shape1 shape2 : Entity) : Bool :=
  if pc.getBroadPhaseId shape1 = -1 ∨ pc.getBroadPhaseId shape2 = -1 then false
  else
    let aabb1 := ops.getFatAABB t (pc.getBroadPhaseId shape1)
    let aabb2 := ops.getFatAABB t (pc.getBroadPhaseId shape2)
    aabb1.testCollision aabb2

/-- Source: `BroadPhaseSystem::addOverlappingNodes(referenceNodeId, nodes)`:
for each reported node distinct from the reference node, record the
canonical `(min, max)` potential pair. -/
def addOverlappingNodes (referenceNodeId : Int)
    (overlappingNodes : List Int) : List BroadPhasePair :=
  overlappingNodes.filterMap fun d =>
    if referenceNodeId ≠ d then
      some ⟨min referenceNodeId d, max referenceNodeId d⟩
    else none

/-- The first loop of `BroadPhaseSystem::computeOverlappingPairs`: for
each moved node id (skipping -1), query the tree with the node's fat
AABB and append the resulting potential pairs. -/
def potentialPairsOfMoved {τ : Type} (ops : TreeOps τ) (t : τ) :
    List Int → List BroadPhasePair
  | [] => []
  | shapeID :: rest =>
      if shapeID = -1 then potentialPairsOfMoved ops t rest
      else
        let shapeAABB := ops.getFatAABB t shapeID
        addOverlappingNodes shapeID (ops.reportAllShapesOverlappingWithAABB t shapeAABB) ++
          potentialPairsOfMoved ops t rest

/-- Models `std::sort(mPotentialPairs, BroadPhasePair::smallerThan)`: sorting
by the strict lexicographic order produces the unique list sorted under
`pairLe`, modelled by insertion sort. -/
def sortPairs (l : List BroadPhasePair) : List BroadPhasePair :=
  l.insertionSort BroadPhasePair.pairLe

/-- The two-pointer dedup walk of `computeOverlappingPairs`, after the
first pair has been read: equal consecutive pairs are skipped, and each
pair is emitted once when its run ends. -/
def dedupEmissionsAux (p : BroadPhasePair) :
    List BroadPhasePair → List BroadPhasePair
  | [] => [p]
  | q :: rest =>
      if q = p then dedupEmissionsAux p rest
      else p :: dedupEmissionsAux q rest

/-- The dedup walk over the whole sorted buffer: collapse consecutive
equal pairs to a single emission. -/
def dedupEmissions : List BroadPhasePair → List BroadPhasePair
  | [] => []
  | p :: rest => dedupEmissionsAux p rest

/-- The sequence of pairs that `BroadPhaseSystem::computeOverlappingPairs`
passes to `CollisionDetection::broadPhaseNotifyOverlappingPair`, as node
id pairs: build the potential pairs from the moved sequence, sort,
collapse duplicates, and keep only pairs whose two resolved proxy shapes
have different owning-body ids. -/
def computeOverlappingPairsNotified {τ : Type} (ops : TreeOps τ) (t : τ)
    (movedShapes : List Int) : List BroadPhasePair :=
  (dedupEmissions (sortPairs (potentialPairsOfMoved ops t movedShapes))).filter
    fun pair => ops.getNodeBodyId t pair.collisionShape1ID ≠
                  ops.getNodeBodyId t pair.collisionShape2ID

/-- Source: `BroadPhaseSystem::computeOverlappingPairs` as a state transformer:
it also clears the moved-shape sequence; the pair stream it emits is
`computeOverlappingPairsNotified`. -/
def computeOverlappingPairs {τ : Type} (ops : TreeOps τ)
    (s : BroadPhaseState τ) : BroadPhaseState τ × List BroadPhasePair :=
  ({ s with movedShapes := [] },
   computeOverlappingPairsNotified ops s.tree s.movedShapes)

/-- Iterate `addMovedCollisionShape` `N` times with the same node id. -/
def addMovedNTimes {τ : Type} (s : BroadPhaseState τ) (n : Int) :
    Nat → BroadPhaseState τ
  | 0 => s
  | Nat.succ k => addMovedCollisionShape (addMovedNTimes s n k) n

theorem addMovedNTimes_tree {τ : Type} (s : BroadPhaseState τ) (n : Int) :
    ∀ N, (addMovedNTimes s n N).tree = s.tree
  | 0 => rfl
  | Nat.succ k => addMovedNTimes_tree s n k

theorem addMovedNTimes_movedShapes {τ : Type} (s : BroadPhaseState τ) (n : Int) :
    ∀ N, (addMovedNTimes s n N).movedShapes =
      s.movedShapes ++ List.replicate N n := by
  intro N
  induction N with
  | zero => simp [addMovedNTimes]
  | succ k ih =>
      simp [addMovedNTimes, addMovedCollisionShape, ih, List.replicate_succ']

theorem dedupEmissionsAux_cons_eq {p q : BroadPhasePair}
    {rest : List BroadPhasePair} (h : q = p) :
    dedupEmissionsAux p (q :: rest) = dedupEmissionsAux p rest := by
  simp [dedupEmissionsAux, h]

theorem dedupEmissionsAux_cons_ne {p q : BroadPhasePair}
    {rest : List BroadPhasePair} (h : q ≠ p) :
    dedupEmissionsAux p (q :: rest) = p :: dedupEmissionsAux q rest := by
  simp [dedupEmissionsAux, h]

theorem mem_dedupEmissionsAux {x : BroadPhasePair} :
    ∀ {l : List BroadPhasePair} {p : BroadPhasePair},
      x ∈ dedupEmissionsAux p l ↔ x = p ∨ x ∈ l := by
  intro l
  induction l with
  | nil => intro p; simp [dedupEmissionsAux]
  | cons q rest ih =>
      intro p
      by_cases hqp : q = p
      · rw [dedupEmissionsAux_cons_eq hqp, ih]
        subst hqp
        simp only [List.mem_cons]
        tauto
      · rw [dedupEmissionsAux_cons_ne hqp]
        simp only [List.mem_cons, ih]

theorem pairwise_pairLt_dedupEmissionsAux :
    ∀ {l : List BroadPhasePair} {p : BroadPhasePair},
      List.Sorted BroadPhasePair.pairLe (p :: l) →
      List.Pairwise BroadPhasePair.pairLt (dedupEmissionsAux p l) := by
  intro l
  induction l with
  | nil => intro p _; simp [dedupEmissionsAux]
  | cons q rest ih =>
      intro p h
      rw [List.sorted_cons] at h
      obtain ⟨hp, hsq⟩ := h
      have hpq : BroadPhasePair.pairLe p q := hp q (List.mem_cons_self q rest)
      have hq1 : ∀ b ∈ rest, BroadPhasePair.pairLe q b := (List.sorted_cons.mp hsq).1
      have hsrest : List.Sorted BroadPhasePair.pairLe rest := (List.sorted_cons.mp hsq).2
      by_cases hqp : q = p
      · rw [dedupEmissionsAux_cons_eq hqp]
        apply ih
        rw [List.sorted_cons]
        refine ⟨fun b hb => hp b (List.mem_cons_of_mem q hb), hsrest⟩
      · rw [dedupEmissionsAux_cons_ne hqp]
        rw [List.pairwise_cons]
        constructor
        · intro x hx
          rcases mem_dedupEmissionsAux.mp hx with hxq | hxrest
          · subst hxq
            exact ⟨hpq, fun he => hqp (he ▸ rfl)⟩
          · refine ⟨hp x (List.mem_cons_of_mem q hxrest), fun he => hqp ?_⟩
            subst he
            exact BroadPhasePair.pairLe_antisymm (hq1 p hxrest) hpq ▸ rfl
        · exact ih hsq

theorem mem_dedupEmissions {x : BroadPhasePair} :
    ∀ {l : List BroadPhasePair}, x ∈ dedupEmissions l ↔ x ∈ l
  | [] => by simp [dedupEmissions]
  | p :: rest => by
      simp only [dedupEmissions, mem_dedupEmissionsAux, List.mem_cons]

theorem pairwise_pairLt_dedupEmissions {l : List BroadPhasePair}
    (h : List.Sorted BroadPhasePair.pairLe l) :
    List.Pairwise BroadPhasePair.pairLt (dedupEmissions l) := by
  cases l with
  | nil => simp [dedupEmissions]
  | cons p rest =>
      simp only [dedupEmissions]
      exact pairwise_pairLt_dedupEmissionsAux h

theorem nodup_dedupEmissions {l : List BroadPhasePair}
    (h : List.Sorted BroadPhasePair.pairLe l) :
    (dedupEmissions l).Nodup :=
  (pairwise_pairLt_dedupEmissions h).imp fun hlt => hlt.2

theorem sorted_dedupEmissions {l : List BroadPhasePair}
    (h : List.Sorted BroadPhasePair.pairLe l) :
    List.Sorted BroadPhasePair.pairLe (dedupEmissions l) :=
  (pairwise_pairLt_dedupEmissions h).imp fun hlt => hlt.1

theorem mem_sortPairs {x : BroadPhasePair} {l : List BroadPhasePair} :
    x ∈ sortPairs l ↔ x ∈ l :=
  List.mem_insertionSort BroadPhasePair.pairLe

theorem sorted_sortPairs (l : List BroadPhasePair) :
    List.Sorted BroadPhasePair.pairLe (sortPairs l) :=
  List.sorted_insertionSort BroadPhasePair.pairLe l

theorem fst_lt_snd_of_mem_addOverlappingNodes {ref : Int} {nodes : List Int}
    {q : BroadPhasePair} (h : q ∈ addOverlappingNodes ref nodes) :
    q.collisionShape1ID < q.collisionShape2ID := by
  simp only [addOverlappingNodes, List.mem_filterMap] at h
  obtain ⟨d, _, hq⟩ := h
  by_cases hrd : ref ≠ d
  · rw [if_pos hrd] at hq
    cases hq
    exact min_lt_max.mpr hrd
  · rw [if_neg hrd] at hq
    cases hq

theorem mem_potentialPairsOfMoved {τ : Type} {ops : TreeOps τ} {t : τ}
    {q : BroadPhasePair} :
    ∀ {moved : List Int},
      q ∈ potentialPairsOfMoved ops t moved ↔
        ∃ s, s ∈ moved ∧ s ≠ -1 ∧
          q ∈ addOverlappingNodes s
                (ops.reportAllShapesOverlappingWithAABB t (ops.getFatAABB t s)) := by
  intro moved
  induction moved with
  | nil => simp [potentialPairsOfMoved]
  | cons shapeID rest ih =>
      by_cases hs : shapeID = -1
      · simp only [potentialPairsOfMoved, if_pos hs, ih, List.mem_cons]
        constructor
        · rintro ⟨s, hmem, hne, hq⟩
          exact ⟨s, Or.inr hmem, hne, hq⟩
        · rintro ⟨s, hmem | hmem, hne, hq⟩
          · exact absurd (hmem ▸ hs) hne
          · exact ⟨s, hmem, hne, hq⟩
      · simp only [potentialPairsOfMoved, if_neg hs, List.mem_append, ih, List.mem_cons]
        constructor
        · rintro (hq | ⟨s, hmem, hne, hq⟩)
          · exact ⟨shapeID, Or.inl rfl, hs, hq⟩
          · exact ⟨s, Or.inr hmem, hne, hq⟩
        · rintro ⟨s, hmem | hmem, hne, hq⟩
          · exact Or.inl (hmem ▸ hq)
          · exact Or.inr ⟨s, hmem, hne, hq⟩

theorem fst_lt_snd_of_mem_potentialPairsOfMoved {τ : Type} {ops : TreeOps τ}
    {t : τ} {moved : List Int} {q : BroadPhasePair}
    (h : q ∈ potentialPairsOfMoved ops t moved) :
    q.collisionShape1ID < q.collisionShape2ID := by
  obtain ⟨s, _, _, hq⟩ := mem_potentialPairsOfMoved.mp h
  exact fst_lt_snd_of_mem_addOverlappingNodes hq

theorem notified_eq_of_moved_mem_iff {τ : Type} (ops : TreeOps τ) (t : τ)
    {m1 m2 : List Int} (h : ∀ x, x ∈ m1 ↔ x ∈ m2) :
    computeOverlappingPairsNotified ops t m1 =
      computeOverlappingPairsNotified ops t m2 := by
  unfold computeOverlappingPairsNotified
  congr 1
  have hs1 := sorted_sortPairs (potentialPairsOfMoved ops t m1)
  have hs2 := sorted_sortPairs (potentialPairsOfMoved ops t m2)
  have hmem : ∀ q, q ∈ dedupEmissions (sortPairs (potentialPairsOfMoved ops t m1)) ↔
      q ∈ dedupEmissions (sortPairs (potentialPairsOfMoved ops t m2)) := by
    intro q
    rw [mem_dedupEmissions, mem_sortPairs, mem_potentialPairsOfMoved,
        mem_dedupEmissions, mem_sortPairs, mem_potentialPairsOfMoved]
    constructor
    · rintro ⟨s, hmem, hne, hq⟩
      exact ⟨s, (h s).mp hmem, hne, hq⟩
    · rintro ⟨s, hmem, hne, hq⟩
      exact ⟨s, (h s).mpr hmem, hne, hq⟩
  have hperm := (List.perm_ext_iff_of_nodup (nodup_dedupEmissions hs1)
    (nodup_dedupEmissions hs2)).mpr hmem
  exact List.eq_of_perm_of_sorted hperm (sorted_dedupEmissions hs1)
    (sorted_dedupEmissions hs2)

end BroadPhaseSystem

/-- The engine state a `ProxyShape` facade reaches through
`mBody->mWorld`: the proxy-shape component store, the body transform
store, the per-body sleeping flags, and the broad-phase state. -/
structure WorldState (τ : Type) where
  components : ProxyShapeComponents
  transforms : Entity → Transform
  bodySleeping : Entity → Bool
  broadPhase : BroadPhaseState τ

namespace ProxyShape

/-- Source: `ProxyShape::setLocalToBodyTransform(transform)` for the proxy with
entity `entity` owned by the body with entity `bodyEntity`: store the
transform in the component column, clear the owning body's sleeping
flag (`setIsSleeping(false)`, modelled from the spec as waking the
body), and trigger a broad-phase update of this entity. -/
def setLocalToBodyTransform {τ : Type} (ops : TreeOps τ) (w : WorldState τ)
    (bodyEntity entity : Entity) (transform : Transform) : WorldState τ :=
  let components1 := w.components.setLocalToBodyTransform entity transform
  let sleeping1 := fun e => if e = bodyEntity then false else w.bodySleeping e
  let broadPhase1 :=
    BroadPhaseSystem.updateProxyShape ops components1 w.transforms w.broadPhase entity
  { components := components1, transforms := w.transforms,
    bodySleeping := sleeping1, broadPhase := broadPhase1 }

/-- Source: `ProxyShape::setCollisionCategoryBits(bits)`: store the bits in the
component column; nothing else changes (the remaining statements of the
source method only emit a log line). -/
def setCollisionCategoryBits {τ : Type} (w : WorldState τ) (entity : Entity)
    (bits : Nat) : WorldState τ :=
  { w with components := w.components.setCollisionCategoryBits entity bits }

/-- Source: `ProxyShape::setCollideWithMaskBits(bits)`: store the bits in the
component column; nothing else changes. -/
def setCollideWithMaskBits {τ : Type} (w : WorldState τ) (entity : Entity)
    (bits : Nat) : WorldState τ :=
  { w with components := w.components.setCollideWithMaskBits entity bits }

/-- The data `ProxyShape::raycast` reads: whether the owning body is
active, the body's world transform and the shape's local-to-body
transform (whose composition is `getLocalToWorldTransform()`), and the
collision shape's polymorphic raycast capability, modelled as a function
from a local-space ray and the incoming info record to the hit flag and
the written info record (the out-parameter discipline of the source). -/
structure RaycastModel where
  bodyIsActive : Bool
  bodyTransform : Transform
  localToBodyTransform : Transform
  collisionShapeRaycast : Ray → RaycastInfo → Bool × RaycastInfo

/-- Source: `ProxyShape::raycast(ray, raycastInfo)`: return a miss at once for
an inactive body; otherwise map the ray into shape-local space, delegate
to the collision shape, then unconditionally map the info record's
`worldPoint` and `worldNormal` back to world space, renormalising the
normal.  `normalizeV` abstracts `Vector3::normalize` (square roots are
outside the rational model). -/
def raycast (normalizeV : Vector3 → Vector3) (m : RaycastModel)
    (ray : Ray) (raycastInfo : RaycastInfo) : Bool × RaycastInfo :=
  if !m.bodyIsActive then (false, raycastInfo)
  else
    let localToWorldTransform := m.bodyTransform.compose m.localToBodyTransform
    let worldToLocalTransform := localToWorldTransform.getInverse
    let rayLocal : Ray :=
      ⟨worldToLocalTransform.applyPoint ray.point1,
       worldToLocalTransform.applyPoint ray.point2, ray.maxFraction⟩
    let r := m.collisionShapeRaycast rayLocal raycastInfo
    let info1 := r.2
    (r.1,
     { info1 with
        worldPoint := localToWorldTransform.applyPoint info1.worldPoint,
        worldNormal :=
          normalizeV (localToWorldTransform.orientation.mulVec info1.worldNormal) })

end ProxyShape

/-- The data `BroadPhaseRaycastCallback::raycastBroadPhaseShape` reads
about a tree leaf: the resolved proxy shape's collision category bits
(`getNodeDataPointer` followed by `getCollisionCategoryBits`), the
query's category mask, and the narrow-phase capability
`RaycastTest::raycastAgainstShape`, abstract over the proxy-shape
representation `α`. -/
structure RaycastCallbackModel (α : Type) where
  getNodeDataPointer : Int → α
  getCollisionCategoryBits : α → Nat
  raycastWithCategoryMaskBits : Nat
  raycastAgainstShape : α → Ray → Rat

/-- Source: `BroadPhaseRaycastCallback::raycastBroadPhaseShape(nodeId, ray)`:
start from hit fraction -1 (ignore); when the query mask ANDed with the
leaf's category bits is non-zero, replace it by the narrow-phase
raycast's fraction. -/
def raycastBroadPhaseShape {α : Type} (m : RaycastCallbackModel α)
    (nodeId : Int) (ray : Ray) : Rat :=
  let hitFraction : Rat := -1
  let proxyShape := m.getNodeDataPointer nodeId
  if m.raycastWithCategoryMaskBits &&& m.getCollisionCategoryBits proxyShape ≠ 0 then
    m.raycastAgainstShape proxyShape ray
  else hitFraction

/-- A concrete instantiation of the abstract tree interface, used to
evaluate the verified operations on closed inputs. -/
def sampleOps : TreeOps Unit where
  getFatAABB := fun _ _ => AABB.point
  getNodeBodyId := fun _ id => id
  reportAllShapesOverlappingWithAABB := fun _ _ => [1, 2, 5]
  updateObject := fun t _ _ _ => (true, t)

/-- A concrete broad-phase state with a duplicated moved-shape entry. -/
def sampleState : BroadPhaseState Unit := ⟨(), [2, 5, 5]⟩

/-- A concrete component store: row 0 (entity 7) is enabled and indexed
at node 4; row 1 (entity 9) is disabled. -/
def samplePC : ProxyShapeComponents where
  broadPhaseIds := fun i => if i = 0 then 4 else -1
  bodiesEntities := fun _ => 3
  localToBodyTransforms := fun _ => Transform.identity
  collisionShapes := fun _ _ => AABB.point
  collisionCategoryBits := fun _ => 1
  collideWithMaskBits := fun _ => 65535
  mapEntityToComponentIndex := fun e =>
    if e = 7 then some 0 else if e = 9 then some 1 else none
  nbEnabledComponents := 1

/-- A concrete body-transform store. -/
def sampleTC : Entity → Transform := fun _ => Transform.identity

/-- A concrete ray used by the raycast examples. -/
def sampleRay : Ray := ⟨Vector3.zero, ⟨1, 0, 0⟩, 1⟩

/-- A concrete raycast-info record. -/
def sampleInfo : RaycastInfo := ⟨⟨2, 3, 4⟩, ⟨0, 0, 1⟩, 1⟩

namespace BroadPhaseSystem

/-- C1: for every tree state and moved-shape sequence, the stream of
pairs that `computeOverlappingPairs` passes to
`broadPhaseNotifyOverlappingPair` contains no two equal pairs, no pair
with equal node ids, and only pairs whose resolved proxy shapes belong
to bodies with different ids. -/
theorem computeOverlappingPairs_pair_stream_sound {τ : Type}
    (ops : TreeOps τ) (s : BroadPhaseState τ) :
    ((computeOverlappingPairs ops s).2).Nodup ∧
    (∀ p ∈ (computeOverlappingPairs ops s).2,
      p.collisionShape1ID ≠ p.collisionShape2ID) ∧
    (∀ p ∈ (computeOverlappingPairs ops s).2,
      ops.getNodeBodyId s.tree p.collisionShape1ID ≠
        ops.getNodeBodyId s.tree p.collisionShape2ID) := by
  have hsorted := sorted_sortPairs (potentialPairsOfMoved ops s.tree s.movedShapes)
  refine ⟨?_, ?_, ?_⟩
  · exact (nodup_dedupEmissions hsorted).filter _
  · intro p hp
    have hmem : p ∈ dedupEmissions
        (sortPairs (potentialPairsOfMoved ops s.tree s.movedShapes)) :=
      List.mem_of_mem_filter hp
    have := fst_lt_snd_of_mem_potentialPairsOfMoved
      (mem_sortPairs.mp (mem_dedupEmissions.mp hmem))
    omega
  · intro p hp
    have := List.of_mem_filter hp
    simpa using this

/-- C2: adding the same node id to the moved-shape sequence `N ≥ 1`
times and then computing pairs notifies exactly the same sequence of
pairs as adding it once. -/
theorem computeOverlappingPairs_moved_idempotent {τ : Type}
    (ops : TreeOps τ) (s : BroadPhaseState τ) (n : Int) (N : Nat)
    (hN : 1 ≤ N) :
    (computeOverlappingPairs ops (addMovedNTimes s n N)).2 =
      (computeOverlappingPairs ops (addMovedCollisionShape s n)).2 := by
  show computeOverlappingPairsNotified ops (addMovedNTimes s n N).tree
      (addMovedNTimes s n N).movedShapes =
    computeOverlappingPairsNotified ops s.tree (s.movedShapes ++ [n])
  rw [addMovedNTimes_tree, addMovedNTimes_movedShapes]
  apply notified_eq_of_moved_mem_iff
  intro x
  simp only [List.mem_append, List.mem_replicate, List.mem_singleton]
  have hN0 : N ≠ 0 := by omega
  tauto

/-- C2 witness: with a concrete tree interface and state, adding node 7
twice notifies the same pairs as adding it once. -/
theorem computeOverlappingPairs_moved_idempotent_witness :
    1 ≤ 2 ∧
    (computeOverlappingPairs sampleOps (addMovedNTimes sampleState 7 2)).2 =
      (computeOverlappingPairs sampleOps (addMovedCollisionShape sampleState 7)).2 :=
  ⟨by decide, computeOverlappingPairs_moved_idempotent sampleOps sampleState 7 2 (by decide)⟩

/-- C5: every potential pair recorded by the sweep stores the smaller
node id first, and the notified pair stream is strictly increasing in
the lexicographic `smallerThan` order used to sort it. -/
theorem potentialPairs_canonical_notified_sorted {τ : Type}
    (ops : TreeOps τ) (s : BroadPhaseState τ) :
    (∀ p ∈ potentialPairsOfMoved ops s.tree s.movedShapes,
      p.collisionShape1ID < p.collisionShape2ID) ∧
    ((computeOverlappingPairs ops s).2).Pairwise BroadPhasePair.smallerThan := by
  constructor
  · intro p hp
    exact fst_lt_snd_of_mem_potentialPairsOfMoved hp
  · have hsorted := sorted_sortPairs (potentialPairsOfMoved ops s.tree s.movedShapes)
    have hlt := pairwise_pairLt_dedupEmissions hsorted
    have hsmaller : List.Pairwise BroadPhasePair.smallerThan
        (dedupEmissions (sortPairs (potentialPairsOfMoved ops s.tree s.movedShapes))) := by
      refine hlt.imp ?_
      intro a b hab
      obtain ⟨hle, hne⟩ := hab
      rcases hle with h1 | ⟨h1, h2⟩
      · exact Or.inl h1
      · refine Or.inr ⟨h1, lt_of_le_of_ne h2 fun he => hne ?_⟩
        exact BroadPhasePair.ext_pair h1 he
    exact hsmaller.sublist (List.filter_sublist _)

/-- C1 witness: the pair-stream guarantees evaluated on a concrete tree
interface and a moved-shape sequence with a duplicate entry. -/
theorem computeOverlappingPairs_pair_stream_sound_witness :
    ((computeOverlappingPairs sampleOps sampleState).2).Nodup ∧
    (∀ p ∈ (computeOverlappingPairs sampleOps sampleState).2,
      p.collisionShape1ID ≠ p.collisionShape2ID) ∧
    (∀ p ∈ (computeOverlappingPairs sampleOps sampleState).2,
      sampleOps.getNodeBodyId sampleState.tree p.collisionShape1ID ≠
        sampleOps.getNodeBodyId sampleState.tree p.collisionShape2ID) :=
  computeOverlappingPairs_pair_stream_sound sampleOps sampleState

/-- C5 witness: canonical pair storage and sorted notification order
evaluated on a concrete tree interface and moved-shape sequence. -/
theorem potentialPairs_canonical_notified_sorted_witness :
    (∀ p ∈ potentialPairsOfMoved sampleOps sampleState.tree sampleState.movedShapes,
      p.collisionShape1ID < p.collisionShape2ID) ∧
    ((computeOverlappingPairs sampleOps sampleState).2).Pairwise
      BroadPhasePair.smallerThan :=
  potentialPairs_canonical_notified_sorted sampleOps sampleState

/-- C3: for an entity on an enabled row with a valid broad-phase node
id, `updateProxyShape` recomputes the world AABB by asking the shape for
its AABB under the body transform composed with the local-to-body
transform, feeds it to `tree.updateObject` with a zero displacement, and
appends the node id to the moved-shape sequence exactly when the tree
reports re-insertion. -/
theorem updateProxyShape_enabled_row {τ : Type} (ops : TreeOps τ)
    (pc : ProxyShapeComponents) (tc : Entity → Transform)
    (s : BroadPhaseState τ) (e : Entity) (i : Nat)
    (hmap : pc.mapEntityToComponentIndex e = some i)
    (hen : i < pc.nbEnabledComponents)
    (hid : pc.broadPhaseIds i ≠ -1) :
    updateProxyShape ops pc tc s e =
      (let aabb := pc.collisionShapes i
        ((tc (pc.bodiesEntities i)).compose (pc.localToBodyTransforms i))
       let u := ops.updateObject s.tree (pc.broadPhaseIds i) aabb Vector3.zero
       { tree := u.2,
         movedShapes :=
           if u.1 then s.movedShapes ++ [pc.broadPhaseIds i]
           else s.movedShapes }) := by
  unfold updateProxyShape
  rw [hmap]
  unfold updateProxyShapesComponents
  have h1 : min i pc.nbEnabledComponents = i := min_eq_left (le_of_lt hen)
  have h2 : min (i + 1) pc.nbEnabledComponents = i + 1 := min_eq_left hen
  simp only [h1, h2]
  have h3 : i + 1 - i = 1 := by omega
  rw [h3]
  simp only [updateRows, updateRow, if_pos hid, updateProxyShapeInternal,
    addMovedCollisionShape]
  split <;> rfl

/-- C3 witness: entity 7 sits on enabled row 0 with node id 4; with the
concrete tree interface the update re-inserts and the moved sequence
gains node 4. -/
theorem updateProxyShape_enabled_row_witness :
    samplePC.mapEntityToComponentIndex 7 = some 0 ∧
    0 < samplePC.nbEnabledComponents ∧
    samplePC.broadPhaseIds 0 ≠ -1 ∧
    updateProxyShape sampleOps samplePC sampleTC sampleState 7 =
      (let aabb := samplePC.collisionShapes 0
        ((sampleTC (samplePC.bodiesEntities 0)).compose
          (samplePC.localToBodyTransforms 0))
       let u := sampleOps.updateObject sampleState.tree
        (samplePC.broadPhaseIds 0) aabb Vector3.zero
       { tree := u.2,
         movedShapes :=
           if u.1 then sampleState.movedShapes ++ [samplePC.broadPhaseIds 0]
           else sampleState.movedShapes }) :=
  ⟨by decide, by decide, by decide,
   updateProxyShape_enabled_row sampleOps samplePC sampleTC sampleState 7 0
     (by decide) (by decide) (by decide)⟩

/-- C9: for an entity whose row lies at or beyond the enabled count,
`updateProxyShape` is a no-op: both clamped bounds collapse to the
enabled count, so the tree and the moved-shape sequence are untouched. -/
theorem updateProxyShape_disabled_row_noop {τ : Type} (ops : TreeOps τ)
    (pc : ProxyShapeComponents) (tc : Entity → Transform)
    (s : BroadPhaseState τ) (e : Entity) (i : Nat)
    (hmap : pc.mapEntityToComponentIndex e = some i)
    (hdis : pc.nbEnabledComponents ≤ i) :
    updateProxyShape ops pc tc s e = s := by
  unfold updateProxyShape
  rw [hmap]
  unfold updateProxyShapesComponents
  have h1 : min i pc.nbEnabledComponents = pc.nbEnabledComponents :=
    min_eq_right hdis
  have h2 : min (i + 1) pc.nbEnabledComponents = pc.nbEnabledComponents :=
    min_eq_right (le_trans hdis (Nat.le_succ i))
  simp only [h1, h2, Nat.sub_self]
  rfl

/-- C9 witness: entity 9 sits on row 1, at the enabled count, and its
update leaves the broad-phase state untouched. -/
theorem updateProxyShape_disabled_row_noop_witness :
    samplePC.mapEntityToComponentIndex 9 = some 1 ∧
    samplePC.nbEnabledComponents ≤ 1 ∧
    updateProxyShape sampleOps samplePC sampleTC sampleState 9 = sampleState :=
  ⟨by decide, by decide,
   updateProxyShape_disabled_row_noop sampleOps samplePC sampleTC sampleState 9 1
     (by decide) (by decide)⟩

/-- C4: `testOverlappingShapes` returns false when either proxy has
broad-phase node id -1, and otherwise returns exactly the overlap test
of the two nodes' fat AABBs from the tree. -/
theorem testOverlappingShapes_spec {τ : Type} (ops : TreeOps τ) (t : τ)
    (pc : ProxyShapeComponents) (shape1 shape2 : Entity) :
    ((pc.getBroadPhaseId shape1 = -1 ∨ pc.getBroadPhaseId shape2 = -1) →
      testOverlappingShapes ops t pc shape1 shape2 = false) ∧
    (pc.getBroadPhaseId shape1 ≠ -1 → pc.getBroadPhaseId shape2 ≠ -1 →
      testOverlappingShapes ops t pc shape1 shape2 =
        (ops.getFatAABB t (pc.getBroadPhaseId shape1)).testCollision
          (ops.getFatAABB t (pc.getBroadPhaseId shape2))) := by
  constructor
  · intro h
    unfold testOverlappingShapes
    rw [if_pos h]
  · intro h1 h2
    unfold testOverlappingShapes
    rw [if_neg (by tauto)]

/-- C4 witness: entity 9 is unindexed so the test is false against any
partner; entity 7 against itself reduces to the fat-AABB overlap test. -/
theorem testOverlappingShapes_spec_witness :
    (testOverlappingShapes sampleOps () samplePC 9 7 = false) ∧
    (testOverlappingShapes sampleOps () samplePC 7 7 =
      (sampleOps.getFatAABB () (samplePC.getBroadPhaseId 7)).testCollision
        (sampleOps.getFatAABB () (samplePC.getBroadPhaseId 7))) :=
  ⟨(testOverlappingShapes_spec sampleOps () samplePC 9 7).1 (by decide),
   (testOverlappingShapes_spec sampleOps () samplePC 7 7).2 (by decide) (by decide)⟩

end BroadPhaseSystem

/-- C6: for every leaf reached by the broad-phase raycast callback, a
zero AND of the query's category mask with the leaf's category bits
yields -1 (hit ignored) and the result does not depend on the
narrow-phase raycast capability (it is never invoked); otherwise the
callback returns exactly the narrow-phase fraction for that proxy. -/
theorem raycastBroadPhaseShape_mask_filter {α : Type}
    (getNode : Int → α) (catBits : α → Nat) (mask : Nat)
    (f g : α → Ray → Rat) (nodeId : Int) (ray : Ray) :
    (mask &&& catBits (getNode nodeId) = 0 →
      raycastBroadPhaseShape ⟨getNode, catBits, mask, f⟩ nodeId ray = -1 ∧
      raycastBroadPhaseShape ⟨getNode, catBits, mask, f⟩ nodeId ray =
        raycastBroadPhaseShape ⟨getNode, catBits, mask, g⟩ nodeId ray) ∧
    (mask &&& catBits (getNode nodeId) ≠ 0 →
      raycastBroadPhaseShape ⟨getNode, catBits, mask, f⟩ nodeId ray =
        f (getNode nodeId) ray) := by
  constructor
  · intro h
    unfold raycastBroadPhaseShape
    simp only [h]
    exact ⟨rfl, rfl⟩
  · intro h
    unfold raycastBroadPhaseShape
    simp only [if_pos h]

/-- C6 witness: with category bits 0x0001, a mask of 0x0002 ignores the
leaf without consulting the narrow phase, while a mask of 0x0003 returns
the narrow-phase fraction 5. -/
theorem raycastBroadPhaseShape_mask_filter_witness :
    (raycastBroadPhaseShape ⟨fun _ => (), fun _ => 1, 2, fun _ _ => 5⟩ 0 sampleRay = -1) ∧
    (raycastBroadPhaseShape ⟨fun _ => (), fun _ => 1, 3, fun _ _ => 5⟩ 0 sampleRay =
      (fun (_ : Unit) (_ : Ray) => (5 : Rat)) () sampleRay) :=
  ⟨((raycastBroadPhaseShape_mask_filter (fun _ => ()) (fun _ => 1) 2
      (fun _ _ => 5) (fun _ _ => 5) 0 sampleRay).1 (by decide)).1,
   (raycastBroadPhaseShape_mask_filter (fun _ => ()) (fun _ => 1) 3
      (fun _ _ => 5) (fun _ _ => 5) 0 sampleRay).2 (by decide)⟩

namespace ProxyShape

/-- C7: `setLocalToBodyTransform` clears the owning body's sleeping
flag and triggers a broad-phase update of the shape's entity, whereas
`setCollisionCategoryBits` and `setCollideWithMaskBits` only write the
stored filter bits: the broad-phase state (tree and moved sequence), the
sleeping flags, and every other component column are unchanged. -/
theorem setters_effects {τ : Type} (ops : TreeOps τ) (w : WorldState τ)
    (bodyEntity entity : Entity) (transform : Transform) (bits : Nat) :
    ((setLocalToBodyTransform ops w bodyEntity entity transform).bodySleeping
        bodyEntity = false ∧
      (setLocalToBodyTransform ops w bodyEntity entity transform).broadPhase =
        BroadPhaseSystem.updateProxyShape ops
          (w.components.setLocalToBodyTransform entity transform)
          w.transforms w.broadPhase entity) ∧
    ((setCollisionCategoryBits w entity bits).broadPhase = w.broadPhase ∧
      (setCollisionCategoryBits w entity bits).bodySleeping = w.bodySleeping ∧
      (setCollisionCategoryBits w entity bits).components.broadPhaseIds =
        w.components.broadPhaseIds ∧
      (setCollisionCategoryBits w entity bits).components.localToBodyTransforms =
        w.components.localToBodyTransforms ∧
      (setCollisionCategoryBits w entity bits).components.collideWithMaskBits =
        w.components.collideWithMaskBits ∧
      (setCollisionCategoryBits w entity bits).components =
        w.components.setCollisionCategoryBits entity bits) ∧
    ((setCollideWithMaskBits w entity bits).broadPhase = w.broadPhase ∧
      (setCollideWithMaskBits w entity bits).bodySleeping = w.bodySleeping ∧
      (setCollideWithMaskBits w entity bits).components.broadPhaseIds =
        w.components.broadPhaseIds ∧
      (setCollideWithMaskBits w entity bits).components.localToBodyTransforms =
        w.components.localToBodyTransforms ∧
      (setCollideWithMaskBits w entity bits).components.collisionCategoryBits =
        w.components.collisionCategoryBits ∧
      (setCollideWithMaskBits w entity bits).components =
        w.components.setCollideWithMaskBits entity bits) := by
  refine ⟨⟨by simp [setLocalToBodyTransform], rfl⟩, ⟨rfl, rfl, ?_, ?_, ?_, rfl⟩,
    ⟨rfl, rfl, ?_, ?_, ?_, rfl⟩⟩ <;>
    · simp only [setCollisionCategoryBits, setCollideWithMaskBits,
        ProxyShapeComponents.setCollisionCategoryBits,
        ProxyShapeComponents.setCollideWithMaskBits]
      cases w.components.mapEntityToComponentIndex entity <;> rfl

/-- C8: when the owning body is inactive, `ProxyShape::raycast` returns
a miss at once: the collision shape's raycast capability is never
consulted (the result is the same for every such capability) and the
caller's raycast-info record is returned unchanged. -/
theorem raycast_inactive_body_misses (normalizeV : Vector3 → Vector3)
    (bodyTransform localToBody : Transform)
    (shapeRaycast : Ray → RaycastInfo → Bool × RaycastInfo)
    (ray : Ray) (raycastInfo : RaycastInfo) :
    raycast normalizeV ⟨false, bodyTransform, localToBody, shapeRaycast⟩
      ray raycastInfo = (false, raycastInfo) :=
  rfl

/-- C10: whenever the owning body is active, `ProxyShape::raycast`
returns the collision shape's hit flag together with an info record
whose `worldPoint` and `worldNormal` have been overwritten with the
world-space transform of whatever the collision shape wrote (normal
renormalised), regardless of whether the hit flag is false; the
out-parameter is not left unchanged on a miss. -/
theorem raycast_active_overwrites_info (normalizeV : Vector3 → Vector3)
    (m : RaycastModel) (ray : Ray) (raycastInfo : RaycastInfo)
    (hactive : m.bodyIsActive = true) :
    raycast normalizeV m ray raycastInfo =
      (let localToWorldTransform := m.bodyTransform.compose m.localToBodyTransform
       let worldToLocalTransform := localToWorldTransform.getInverse
       let r := m.collisionShapeRaycast
        ⟨worldToLocalTransform.applyPoint ray.point1,
         worldToLocalTransform.applyPoint ray.point2, ray.maxFraction⟩ raycastInfo
       (r.1,
        { r.2 with
           worldPoint := localToWorldTransform.applyPoint r.2.worldPoint,
           worldNormal :=
             normalizeV
               (localToWorldTransform.orientation.mulVec r.2.worldNormal) })) := by
  unfold raycast
  rw [hactive]
  rfl

/-- C10 witness: with an active body, the identity transform and a
collision-shape raycast that reports a miss while writing the info
record, the wrapper still returns the transformed written record. -/
theorem raycast_active_overwrites_info_witness :
    (⟨true, Transform.identity, Transform.identity,
        fun r _ => (false, ⟨r.point1, ⟨0, 0, 1⟩, 1/2⟩)⟩ : RaycastModel).bodyIsActive = true ∧
    raycast (fun v => v)
        ⟨true, Transform.identity, Transform.identity,
          fun r _ => (false, ⟨r.point1, ⟨0, 0, 1⟩, 1/2⟩)⟩ sampleRay sampleInfo =
      (let localToWorldTransform := Transform.compose Transform.identity Transform.identity
       let worldToLocalTransform := localToWorldTransform.getInverse
       let r := (fun (r : Ray) (_ : RaycastInfo) =>
          (false, (⟨r.point1, ⟨0, 0, 1⟩, 1/2⟩ : RaycastInfo)))
        ⟨worldToLocalTransform.applyPoint sampleRay.point1,
         worldToLocalTransform.applyPoint sampleRay.point2, sampleRay.maxFraction⟩ sampleInfo
       (r.1,
        { r.2 with
           worldPoint := localToWorldTransform.applyPoint r.2.worldPoint,
           worldNormal :=
             (fun v => v)
               (localToWorldTransform.orientation.mulVec r.2.worldNormal) })) :=
  ⟨rfl,
   raycast_active_overwrites_info (fun v => v)
     ⟨true, Transform.identity, Transform.identity,
       fun r _ => (false, ⟨r.point1, ⟨0, 0, 1⟩, 1/2⟩)⟩ sampleRay sampleInfo rfl⟩

end ProxyShape

end RP3D
